import Mathlib

/-!
Verification of the dependency-injection container in
`container/container.go` of the go-toolkit repository.

The Go code is shallowly embedded as follows.

* Go `reflect.Type` values are opaque identifiers (`GoType := Nat`); the
  type system's `AssignableTo` relation and the container's own reflected
  type are packaged in a `TypeSys` parameter, since the container code
  treats both as black boxes supplied by the Go runtime.
* Go `interface{}` values that flow through the container are `GoVal`:
  the untyped `nil` interface, the container itself (produced by the
  self-reference branch of `instanceOfType`), error values (values whose
  dynamic type implements `error`), and other opaque values tagged with
  their dynamic type.
* Go functions used as factories and callbacks are `GoFunc`: a list of
  declared parameter types, a list of declared result types, and a body
  mapping argument values to result values (Go factories are modelled as
  deterministic functions of their arguments).
* The mutable state (the container's entity records) is threaded
  explicitly; every operation returns, besides its result, the updated
  `Container` and the trace of factory invocations (the list of entity
  indices whose `initializeFunc` was called, in call order). The trace is
  pure instrumentation making "the factory was invoked k times"
  observable; it influences nothing.
* The per-entity `sync.RWMutex` in `Entity.Value` is modelled by a
  `locked` flag: a nested access to an entity whose lock is held would
  block forever in Go (the mutex is not reentrant), which the model
  reports as the `Err.reentrantLock` outcome.
* Recursive resolution (`Get` → `Entity.Value` → `createValue` →
  `funcArgs` → `instanceOfType` → `Get`) can diverge in Go on cyclic
  bindings, so the interpreter takes a fuel argument; exhaustion is the
  `Err.outOfFuel` outcome, the model's stand-in for nontermination.
* Go error values carry formatted message strings; the model keeps the
  error constructors and their decision-relevant payloads and drops the
  message text.
* The `Container.objects` map and the `Container.objectSlices` slice are
  mutated only together (`bindWith`, `BindValue`) and always hold exactly
  the same entities, so the model stores the slice and answers map
  membership (`objects[key]`) by searching the slice for the key.
-/

namespace GoToolkit

/-- A Go `reflect.Type`, opaque to the container code. -/
abbrev GoType := Nat

/-- A non-type key token together with its dynamic type
(`reflect.TypeOf(key)` for a key that is not itself a `reflect.Type`). -/
structure Token where
  id : Nat
  dynTyp : GoType
deriving DecidableEq

/-- An `interface{}` key as passed to `Get`/`bindWith`: either a
`reflect.Type` or an arbitrary application-chosen token. -/
inductive GoKey where
  | typ (t : GoType)
  | tok (tk : Token)
deriving DecidableEq

/-- The ambient Go type system as seen by the container: the
`AssignableTo` relation, the container's own reflected pointer type
(`reflect.TypeOf(c)`), and the representation of the nil type (what
`reflect.TypeOf` returns on an untyped nil; unreachable through the
guarded code paths). -/
structure TypeSys where
  assignableTo : GoType → GoType → Bool
  containerTyp : GoType
  nilType : GoType

/-- An `interface{}` value flowing through the container. -/
inductive GoVal where
  | nil
  | containerVal
  | errv (t : GoType) (code : Nat)
  | prim (t : GoType) (data : Nat)
deriving DecidableEq

/-- Dynamic type of a value, `reflect.TypeOf`. -/
def GoVal.typeOf (ts : TypeSys) : GoVal → GoType
  | .nil => ts.nilType
  | .containerVal => ts.containerTyp
  | .errv t _ => t
  | .prim t _ => t

/-- A Go function value used as a factory (`initializeFunc`) or as a
`Call` callback: declared parameter types, declared result types, and
the body. -/
structure GoFunc where
  params : List GoType
  outs : List GoType
  body : List GoVal → List GoVal

/-- Error outcomes. The first five mirror the error constructors of
`container.go`; `factoryErr` is an error value returned by a factory as
its second result and propagated verbatim; `outOfFuel` models
nontermination of the recursive resolution; `reentrantLock` models a
goroutine blocking forever on an entity lock it already holds;
`panicErr` models the Go runtime panic of calling `reflect.ValueOf(nil).Type()`
on an entity with no factory (unreachable through the public API). -/
inductive Err where
  | objectNotFound (key : GoKey)
  | argNotInstanced (inner : Err)
  | invalidReturnValueCount
  | repeatedBind
  | invalidArgs
  | factoryErr (t : GoType) (code : Nat)
  | outOfFuel
  | reentrantLock
  | panicErr
deriving DecidableEq

/-- One entity record of the container (struct `Entity`). The `locked`
flag models whether `e.lock` is currently held. -/
structure Entity where
  key : GoKey
  initializeFunc : Option GoFunc
  value : GoVal
  typ : GoType
  index : Nat
  prototype : Bool
  locked : Bool

/-- The container: its insertion-ordered entity records
(`objectSlices`; the `objects` map is represented by key search over the
slice, with which it is always in sync). -/
structure Container where
  objectSlices : List Entity

/-- Membership test of the `objects` map. -/
def Container.containsKey (c : Container) (k : GoKey) : Bool :=
  c.objectSlices.any (fun e => decide (e.key = k))

/-- The `reflect.Type` obtained from a `Get` key: the key itself when it
is a `reflect.Type`, otherwise `reflect.TypeOf(key)`. -/
def keyReflectType : GoKey → GoType
  | .typ t => t
  | .tok tk => tk.dynTyp

/-- The per-record test of the loop body of `Container.Get`: exact key
match (against the key or against its reflect type) or assignability of
the record's produced type to the requested type. -/
def entityMatches (ts : TypeSys) (key : GoKey) (krt : GoType) (obj : Entity) : Bool :=
  decide (obj.key = key) || decide (obj.key = GoKey.typ krt) || ts.assignableTo obj.typ krt

/-- The scan of `Container.Get` over `objectSlices`: index of the first
record matched by `entityMatches`, mirroring the Go `for` loop. -/
def findMatch (ts : TypeSys) (key : GoKey) (krt : GoType) : List Entity → Nat → Option Nat
  | [], _ => none
  | obj :: rest, i =>
    if entityMatches ts key krt obj then some i else findMatch ts key krt rest (i + 1)

mutual

/-- Method `Container.Get`. Every interpreter function consumes one unit
of fuel on entry, so each function is structurally recursive in `fuel`
and applications to a literal `fuel` successor reduce definitionally. -/
def containerGet (ts : TypeSys) : Nat → Container → GoKey → Except Err GoVal × Container × List Nat
  | 0, c, _ => (.error .outOfFuel, c, [])
  | m + 1, c, key =>
    let krt := keyReflectType key
    match findMatch ts key krt c.objectSlices 0 with
    | none => (.error (.objectNotFound key), c, [])
    | some i => entityValue ts m c i

/-- Method `Entity.Value` of the entity at index `i`. -/
def entityValue (ts : TypeSys) : Nat → Container → Nat → Except Err GoVal × Container × List Nat
  | 0, c, _ => (.error .outOfFuel, c, [])
  | m + 1, c, i =>
    match c.objectSlices[i]? with
    | none => (.error .panicErr, c, [])
    | some e =>
      if e.prototype then
        createValue ts m c i
      else if e.locked then
        (.error .reentrantLock, c, [])
      else if e.value = GoVal.nil then
        let c₁ : Container := ⟨c.objectSlices.set i { e with locked := true }⟩
        match createValue ts m c₁ i with
        | (.error err, c₂, tr) =>
          (.error err,
            match c₂.objectSlices[i]? with
            | some e₂ => ⟨c₂.objectSlices.set i { e₂ with locked := false }⟩
            | none => c₂,
            tr)
        | (.ok v, c₂, tr) =>
          match c₂.objectSlices[i]? with
          | some e₂ => (.ok v, ⟨c₂.objectSlices.set i { e₂ with value := v, locked := false }⟩, tr)
          | none => (.ok v, c₂, tr)
      else
        (.ok e.value, c, [])

/-- Method `Entity.createValue` of the entity at index `i`. -/
def createValue (ts : TypeSys) : Nat → Container → Nat → Except Err GoVal × Container × List Nat
  | 0, c, _ => (.error .outOfFuel, c, [])
  | m + 1, c, i =>
    match c.objectSlices[i]? with
    | none => (.error .panicErr, c, [])
    | some e =>
      match e.initializeFunc with
      | none => (.error .panicErr, c, [])
      | some f =>
        match funcArgs ts m c f.params with
        | (.error err, c₁, tr) => (.error err, c₁, tr)
        | (.ok args, c₁, tr) =>
          match f.body args with
          | [] => (.error .invalidReturnValueCount, c₁, tr ++ [i])
          | r0 :: rest =>
            match rest with
            | [] => (.ok r0, c₁, tr ++ [i])
            | r1 :: _ =>
              if r1 = GoVal.nil then (.ok r0, c₁, tr ++ [i])
              else
                match r1 with
                | .errv t code => (.error (.factoryErr t code), c₁, tr ++ [i])
                | _ => (.ok r0, c₁, tr ++ [i])

/-- Method `Container.funcArgs`, resolving a declared parameter list. -/
def funcArgs (ts : TypeSys) : Nat → Container → List GoType →
    Except Err (List GoVal) × Container × List Nat
  | 0, c, _ => (.error .outOfFuel, c, [])
  | m + 1, c, params =>
    match params with
    | [] => (.ok [], c, [])
    | t :: rest =>
      match instanceOfType ts m c t with
      | (.error err, c₁, tr) => (.error err, c₁, tr)
      | (.ok v, c₁, tr) =>
        match funcArgs ts m c₁ rest with
        | (.error err, c₂, tr₂) => (.error err, c₂, tr ++ tr₂)
        | (.ok vs, c₂, tr₂) => (.ok (v :: vs), c₂, tr ++ tr₂)

/-- Method `Container.instanceOfType`, resolving one required type. -/
def instanceOfType (ts : TypeSys) : Nat → Container → GoType → Except Err GoVal × Container × List Nat
  | 0, c, _ => (.error .outOfFuel, c, [])
  | m + 1, c, t =>
    if ts.assignableTo ts.containerTyp t then (.ok .containerVal, c, [])
    else
      match containerGet ts m c (.typ t) with
      | (.error err, c₁, tr) => (.error (.argNotInstanced err), c₁, tr)
      | (.ok v, c₁, tr) => (.ok v, c₁, tr)

end

end GoToolkit

namespace GoToolkit

/-- Method `Container.bindWith`: uniqueness check then append of a fresh
entity record. -/
def bindWith (c : Container) (key : GoKey) (typ : GoType) (initFn : Option GoFunc)
    (prototype : Bool) : Option Err × Container :=
  if c.containsKey key then (some .repeatedBind, c)
  else
    (none, ⟨c.objectSlices ++
      [{ key := key, initializeFunc := initFn, value := .nil, typ := typ,
         index := c.objectSlices.length, prototype := prototype, locked := false }]⟩)

/-- Method `Container.BindValue`. -/
def Container.bindValue (ts : TypeSys) (c : Container) (key : GoKey) (value : GoVal) :
    Option Err × Container :=
  if value = GoVal.nil then (some .invalidArgs, c)
  else if c.containsKey key then (some .repeatedBind, c)
  else
    (none, ⟨c.objectSlices ++
      [{ key := key, initializeFunc := none, value := value, typ := value.typeOf ts,
         index := c.objectSlices.length, prototype := false, locked := false }]⟩)

/-- Method `Container.Bind`: key and produced type default to the
factory's first declared result type. A `none` factory models the nil /
invalid `reflect.Value`. -/
def Container.bind (c : Container) (initFn : Option GoFunc) (prototype : Bool) :
    Option Err × Container :=
  match initFn with
  | none => (some .invalidArgs, c)
  | some f =>
    match f.outs with
    | [] => (some .invalidArgs, c)
    | t0 :: _ => bindWith c (.typ t0) t0 (some f) prototype

/-- Method `Container.BindWithKey`. -/
def Container.bindWithKey (c : Container) (key : GoKey) (initFn : Option GoFunc)
    (prototype : Bool) : Option Err × Container :=
  match initFn with
  | none => (some .invalidArgs, c)
  | some f =>
    match f.outs with
    | [] => (some .invalidArgs, c)
    | t0 :: _ => bindWith c key t0 (some f) prototype

/-- Method `Container.Call`: resolve every declared parameter, then
invoke the callback and collect its results. -/
def containerCall (ts : TypeSys) (fuel : Nat) (c : Container) (callback : Option GoFunc) :
    Except Err (List GoVal) × Container × List Nat :=
  match callback with
  | none => (.error .invalidArgs, c, [])
  | some f =>
    match funcArgs ts fuel c f.params with
    | (.error err, c₁, tr) => (.error err, c₁, tr)
    | (.ok args, c₁, tr) => (.ok (f.body args), c₁, tr)

/-- Method `Container.Resolve`: `Call` with the results discarded. -/
def containerResolve (ts : TypeSys) (fuel : Nat) (c : Container) (callback : Option GoFunc) :
    Option Err × Container × List Nat :=
  match containerCall ts fuel c callback with
  | (.error err, c₁, tr) => (some err, c₁, tr)
  | (.ok _, c₁, tr) => (none, c₁, tr)

/-- Iterated access: `n` successive calls of `Entity.Value` on the
entity at index `i` (each a fresh call, hence a fresh fuel budget),
collecting the `n` results and concatenating the invocation traces. -/
def accessList (ts : TypeSys) (fuel : Nat) (i : Nat) :
    Nat → Container → List (Except Err GoVal) × Container × List Nat
  | 0, c => ([], c, [])
  | n + 1, c =>
    let p := entityValue ts fuel c i
    let q := accessList ts fuel i n p.2.1
    (p.1 :: q.1, q.2.1, p.2.2 ++ q.2.2)

/-! ### Concrete instances used to exercise the theorems -/

/-- A type system where assignability is type identity and the
container's own type is `100`. -/
def tsW : TypeSys := ⟨fun a b => a == b, 100, 0⟩

/-- A type system where, additionally, type `1` is assignable to type
`2` (type `1` implements the capability `2`). -/
def tsC1 : TypeSys := ⟨fun a b => (a == 1 && b == 2) || a == b, 100, 0⟩

/-- First record: bound under key `reflect.Type 1`, produced type `1`
(which implements capability `2`). -/
def eC1a : Entity :=
  { key := .typ 1, initializeFunc := none, value := .prim 1 10, typ := 1,
    index := 0, prototype := false, locked := false }

/-- Second record: bound under key `reflect.Type 2` — an exact-key match
for a `Get` of type `2`. -/
def eC1b : Entity :=
  { key := .typ 2, initializeFunc := none, value := .prim 2 20, typ := 2,
    index := 1, prototype := false, locked := false }

/-- A registry holding `eC1a` then `eC1b`, in that registration order. -/
def cC1 : Container := ⟨[eC1a, eC1b]⟩

/-- A singleton record with its value already materialized. -/
def eW2 : Entity :=
  { key := .typ 1, initializeFunc := none, value := .prim 1 5, typ := 1,
    index := 0, prototype := false, locked := false }

def cW2 : Container := ⟨[eW2]⟩

/-- A parameterless factory producing the value `prim 1 7`. -/
def fW3 : GoFunc := ⟨[], [1], fun _ => [.prim 1 7]⟩

/-- An unset singleton record for `fW3`. -/
def eW3 : Entity :=
  { key := .typ 1, initializeFunc := some fW3, value := .nil, typ := 1,
    index := 0, prototype := false, locked := false }

def cW3 : Container := ⟨[eW3]⟩

/-- A parameterless factory legitimately producing the nil value. -/
def fW4 : GoFunc := ⟨[], [1], fun _ => [.nil]⟩

def eW4 : Entity :=
  { key := .typ 1, initializeFunc := some fW4, value := .nil, typ := 1,
    index := 0, prototype := false, locked := false }

def cW4 : Container := ⟨[eW4]⟩

/-- A parameterless factory returning a non-nil error as its second
result. -/
def fW5 : GoFunc := ⟨[], [1, 9], fun _ => [.prim 1 0, .errv 9 3]⟩

def eW5 : Entity :=
  { key := .typ 1, initializeFunc := some fW5, value := .nil, typ := 1,
    index := 0, prototype := false, locked := false }

def cW5 : Container := ⟨[eW5]⟩

/-- A parameterless prototype factory. -/
def fW7 : GoFunc := ⟨[], [1], fun _ => [.prim 1 8]⟩

def eW7 : Entity :=
  { key := .typ 1, initializeFunc := some fW7, value := .nil, typ := 1,
    index := 0, prototype := true, locked := false }

def cW7 : Container := ⟨[eW7]⟩

/-- A registry with one record under key `reflect.Type 3`. -/
def eW6 : Entity :=
  { key := .typ 3, initializeFunc := none, value := .prim 3 1, typ := 3,
    index := 0, prototype := false, locked := false }

def cW6 : Container := ⟨[eW6]⟩

/-- A parameterless factory whose second result is non-nil but does not
implement the error interface. -/
def fW10 : GoFunc := ⟨[], [1, 9], fun _ => [.prim 1 2, .prim 9 9]⟩

def eW10 : Entity :=
  { key := .typ 1, initializeFunc := some fW10, value := .nil, typ := 1,
    index := 0, prototype := false, locked := false }

def cW10 : Container := ⟨[eW10]⟩

end GoToolkit

namespace GoToolkit

/-! ### List helpers -/

theorem listSet_self {α : Type} :
    ∀ (l : List α) (i : Nat) (a : α), l[i]? = some a → l.set i a = l
  | [], i, a, h => by simp at h
  | x :: xs, 0, a, h => by
    simp at h
    subst h
    rfl
  | x :: xs, i + 1, a, h => by
    simp at h
    show x :: xs.set i a = x :: xs
    rw [listSet_self xs i a h]

theorem listGet_set_self {α : Type} :
    ∀ (l : List α) (i : Nat) (a b : α), l[i]? = some b → (l.set i a)[i]? = some a
  | [], i, a, b, h => by simp at h
  | x :: xs, 0, a, b, h => by simp
  | x :: xs, i + 1, a, b, h => by
    simp at h
    simpa using listGet_set_self xs i a b h

/-! ### Evaluation lemmas for the interpreter -/

/-- A singleton entity whose cached value is already set returns it
immediately, touching neither the container nor any factory. -/
theorem entityValue_cached (ts : TypeSys) (m : Nat) (c : Container) (i : Nat)
    (e : Entity) (h : c.objectSlices[i]? = some e) (hp : e.prototype = false)
    (hl : e.locked = false) (hv : e.value ≠ GoVal.nil) :
    entityValue ts (m + 1) c i = (.ok e.value, c, []) := by
  simp only [entityValue]
  rw [h]
  simp [hp, hl, hv]

/-- Iterating accesses over an entity with a set cached value yields the
cached value every time with no factory invocation. -/
theorem accessList_cached (ts : TypeSys) (fuel : Nat) (c : Container) (i : Nat)
    (e : Entity) (hfuel : 1 ≤ fuel) (h : c.objectSlices[i]? = some e)
    (hp : e.prototype = false) (hl : e.locked = false) (hv : e.value ≠ GoVal.nil) :
    ∀ n, accessList ts fuel i n c = (List.replicate n (.ok e.value), c, []) := by
  obtain ⟨m, rfl⟩ : ∃ m, fuel = m + 1 := ⟨fuel - 1, by omega⟩
  intro n
  induction n with
  | zero => rfl
  | succ n ih =>
    simp only [accessList]
    rw [entityValue_cached ts m c i e h hp hl hv]
    simp only []
    rw [ih]
    simp [List.replicate_succ]

end GoToolkit

namespace GoToolkit

/-- A factory with no declared parameters and some result list: its
creation pipeline resolves the empty argument list, invokes the factory
once (logging `i`), and leaves the container untouched, whatever the
factory returns. -/
theorem createValue_nilparams_shape (ts : TypeSys) (m : Nat) (c : Container) (i : Nat)
    (e : Entity) (f : GoFunc) (h : c.objectSlices[i]? = some e)
    (hf : e.initializeFunc = some f) (hps : f.params = []) :
    ∃ r, createValue ts (m + 2) c i = (r, c, [i]) := by
  simp only [createValue]
  rw [h]
  simp only [hf, hps]
  simp only [funcArgs]
  rcases hb : f.body [] with _ | ⟨r0, _ | ⟨r1, rest⟩⟩
  · exact ⟨.error .invalidReturnValueCount, by simp [hb]⟩
  · exact ⟨.ok r0, by simp [hb]⟩
  · by_cases h1 : r1 = GoVal.nil
    · exact ⟨.ok r0, by simp [hb, h1]⟩
    · rcases r1 with _ | _ | ⟨t, code⟩ | ⟨t, d⟩
      · exact absurd rfl h1
      · exact ⟨.ok r0, by simp [hb, h1]⟩
      · exact ⟨.error (.factoryErr t code), by simp [hb, h1]⟩
      · exact ⟨.ok r0, by simp [hb, h1]⟩

/-- Parameterless factory returning a single value. -/
theorem createValue_nilparams_single (ts : TypeSys) (m : Nat) (c : Container) (i : Nat)
    (e : Entity) (f : GoFunc) (v : GoVal) (h : c.objectSlices[i]? = some e)
    (hf : e.initializeFunc = some f) (hps : f.params = []) (hb : f.body [] = [v]) :
    createValue ts (m + 2) c i = (.ok v, c, [i]) := by
  simp only [createValue]
  rw [h]
  simp only [hf, hps]
  simp [funcArgs, hb]

/-- Parameterless factory whose second result is a non-nil error value:
the error is surfaced and nothing else happens. -/
theorem createValue_nilparams_err (ts : TypeSys) (m : Nat) (c : Container) (i : Nat)
    (e : Entity) (f : GoFunc) (v0 : GoVal) (t : GoType) (code : Nat) (rest : List GoVal)
    (h : c.objectSlices[i]? = some e) (hf : e.initializeFunc = some f)
    (hps : f.params = []) (hb : f.body [] = v0 :: .errv t code :: rest) :
    createValue ts (m + 2) c i = (.error (.factoryErr t code), c, [i]) := by
  simp only [createValue]
  rw [h]
  simp only [hf, hps]
  simp [funcArgs, hb]

end GoToolkit

namespace GoToolkit

/-- The unset-singleton path of `Entity.Value`: take the lock, run
`createValue` on the locked container, and on success store the produced
value and release the lock. -/
theorem entityValue_unset_ok (ts : TypeSys) (m : Nat) (c : Container) (i : Nat)
    (e e₂ : Entity) (v : GoVal) (c₂ : Container) (tr : List Nat)
    (h : c.objectSlices[i]? = some e) (hp : e.prototype = false)
    (hl : e.locked = false) (hv : e.value = GoVal.nil)
    (hc : createValue ts m ⟨c.objectSlices.set i { e with locked := true }⟩ i = (.ok v, c₂, tr))
    (h₂ : c₂.objectSlices[i]? = some e₂) :
    entityValue ts (m + 1) c i =
      (.ok v, ⟨c₂.objectSlices.set i { e₂ with value := v, locked := false }⟩, tr) := by
  obtain ⟨k0, f0, v0, t0, i0, p0, l0⟩ := e
  dsimp only at hp hl hv hc
  subst hp
  subst hl
  subst hv
  simp only [entityValue]
  rw [h]
  simp [hc, h₂]

/-- The unset-singleton path of `Entity.Value` when `createValue` fails:
the error is surfaced, the lock is released, and no value is stored. -/
theorem entityValue_unset_err (ts : TypeSys) (m : Nat) (c : Container) (i : Nat)
    (e e₂ : Entity) (err : Err) (c₂ : Container) (tr : List Nat)
    (h : c.objectSlices[i]? = some e) (hp : e.prototype = false)
    (hl : e.locked = false) (hv : e.value = GoVal.nil)
    (hc : createValue ts m ⟨c.objectSlices.set i { e with locked := true }⟩ i = (.error err, c₂, tr))
    (h₂ : c₂.objectSlices[i]? = some e₂) :
    entityValue ts (m + 1) c i =
      (.error err, ⟨c₂.objectSlices.set i { e₂ with locked := false }⟩, tr) := by
  obtain ⟨k0, f0, v0, t0, i0, p0, l0⟩ := e
  dsimp only at hp hl hv hc
  subst hp
  subst hl
  subst hv
  simp only [entityValue]
  rw [h]
  simp [hc, h₂]

/-- First access to an unset singleton whose parameterless factory
returns the single value `v`: the factory runs once and `v` is stored in
the record. -/
theorem entityValue_unset_single (ts : TypeSys) (m : Nat) (c : Container) (i : Nat)
    (e : Entity) (f : GoFunc) (v : GoVal)
    (h : c.objectSlices[i]? = some e) (hp : e.prototype = false)
    (hl : e.locked = false) (hv : e.value = GoVal.nil)
    (hf : e.initializeFunc = some f) (hps : f.params = []) (hb : f.body [] = [v]) :
    entityValue ts (m + 3) c i =
      (.ok v, ⟨c.objectSlices.set i { e with value := v, locked := false }⟩, [i]) := by
  obtain ⟨k0, f0, v0, t0, i0, p0, l0⟩ := e
  dsimp only at hp hl hv hf
  subst hp
  subst hl
  subst hv
  subst hf
  have h₂ := listGet_set_self c.objectSlices i
    ({ key := k0, initializeFunc := some f, value := GoVal.nil, typ := t0, index := i0,
       prototype := false, locked := true } : Entity) _ h
  have hc := createValue_nilparams_single ts m
    ⟨c.objectSlices.set i
      { key := k0, initializeFunc := some f, value := GoVal.nil, typ := t0, index := i0,
        prototype := false, locked := true }⟩ i _ f v h₂ rfl hps hb
  refine Eq.trans (entityValue_unset_ok ts (m + 2) c i _ _ v _ _ h rfl rfl rfl hc h₂) ?_
  simp [List.set_set]

/-- First access to an unset singleton whose parameterless factory
returns a non-nil error as its second result: the error is surfaced, the
lock is released and the container is exactly as before (nothing is
cached). -/
theorem entityValue_unset_factoryErr (ts : TypeSys) (m : Nat) (c : Container) (i : Nat)
    (e : Entity) (f : GoFunc) (v0 : GoVal) (t : GoType) (code : Nat) (rest : List GoVal)
    (h : c.objectSlices[i]? = some e) (hp : e.prototype = false)
    (hl : e.locked = false) (hv : e.value = GoVal.nil)
    (hf : e.initializeFunc = some f) (hps : f.params = [])
    (hb : f.body [] = v0 :: .errv t code :: rest) :
    entityValue ts (m + 3) c i = (.error (.factoryErr t code), c, [i]) := by
  obtain ⟨k0, f0, vv0, t0, i0, p0, l0⟩ := e
  dsimp only at hp hl hv hf
  subst hp
  subst hl
  subst hv
  subst hf
  have h₂ := listGet_set_self c.objectSlices i
    ({ key := k0, initializeFunc := some f, value := GoVal.nil, typ := t0, index := i0,
       prototype := false, locked := true } : Entity) _ h
  have hc := createValue_nilparams_err ts m
    ⟨c.objectSlices.set i
      { key := k0, initializeFunc := some f, value := GoVal.nil, typ := t0, index := i0,
        prototype := false, locked := true }⟩ i _ f v0 t code rest h₂ rfl hps hb
  refine Eq.trans (entityValue_unset_err ts (m + 2) c i _ _ _ _ _ h rfl rfl rfl hc h₂) ?_
  rw [List.set_set, listSet_self c.objectSlices i _ h]

/-- First access to an unset singleton whose parameterless factory
produces the nil value: the nil result is stored, which leaves the
record's cached value indistinguishable from unset. -/
theorem entityValue_unset_nilValue (ts : TypeSys) (m : Nat) (c : Container) (i : Nat)
    (e : Entity) (f : GoFunc)
    (h : c.objectSlices[i]? = some e) (hp : e.prototype = false)
    (hl : e.locked = false) (hv : e.value = GoVal.nil)
    (hf : e.initializeFunc = some f) (hps : f.params = [])
    (hb : f.body [] = [GoVal.nil]) :
    entityValue ts (m + 3) c i = (.ok GoVal.nil, c, [i]) := by
  obtain ⟨k0, f0, vv0, t0, i0, p0, l0⟩ := e
  dsimp only at hp hl hv hf
  subst hp
  subst hl
  subst hv
  subst hf
  refine Eq.trans (entityValue_unset_single ts m c i _ f GoVal.nil h rfl rfl rfl rfl hps hb) ?_
  rw [listSet_self c.objectSlices i _ h]

end GoToolkit

namespace GoToolkit

/-! ### Claim theorems -/

/-- C2: for every singleton (non-prototype) binding whose factory has
successfully materialized a (non-nil) value, every subsequent access —
here, any number `n` of further accesses — returns that same cached
value immediately: the container is unchanged and the factory-invocation
trace is empty, so the factory is not invoked again. The produced value
is computed once and cached for all subsequent lookups. -/
theorem claim_C2 (ts : TypeSys) (fuel : Nat) (c : Container) (i : Nat) (e : Entity)
    (v : GoVal) (hfuel : 1 ≤ fuel) (h : c.objectSlices[i]? = some e)
    (hp : e.prototype = false) (hl : e.locked = false) (hv : e.value = v)
    (hnn : v ≠ GoVal.nil) (n : Nat) :
    accessList ts fuel i n c = (List.replicate n (.ok v), c, []) := by
  subst hv
  exact accessList_cached ts fuel c i e hfuel h hp hl hnn n

/-- Witness for C2 at a concrete registry: three accesses to a cached
singleton all return the cached value with no factory invocation. -/
theorem claim_C2_witness :
    accessList tsW 1 0 3 cW2 = (List.replicate 3 (.ok (.prim 1 5)), cW2, []) :=
  claim_C2 tsW 1 cW2 0 eW2 (.prim 1 5) (by decide) rfl rfl rfl rfl (by decide) 3

/-- C3: a singleton binding whose parameterless factory succeeds with a
non-nil value, accessed `n ≥ 1` times (the per-record lock serializes
concurrent accesses into some sequential order, and all accesses are the
same operation, so any serialization equals this iteration), invokes the
factory exactly once — the trace is `[i]` — and all `n` accesses observe
the identical produced value. -/
theorem claim_C3 (ts : TypeSys) (fuel : Nat) (c : Container) (i : Nat) (e : Entity)
    (f : GoFunc) (v : GoVal) (n : Nat) (hfuel : 3 ≤ fuel)
    (h : c.objectSlices[i]? = some e) (hp : e.prototype = false) (hl : e.locked = false)
    (hv : e.value = GoVal.nil) (hf : e.initializeFunc = some f) (hps : f.params = [])
    (hb : f.body [] = [v]) (hnn : v ≠ GoVal.nil) (hn : 1 ≤ n) :
    accessList ts fuel i n c =
      (List.replicate n (.ok v),
        ⟨c.objectSlices.set i { e with value := v, locked := false }⟩, [i]) := by
  obtain ⟨m, rfl⟩ : ∃ m, fuel = m + 3 := ⟨fuel - 3, by omega⟩
  obtain ⟨n', rfl⟩ : ∃ n', n = n' + 1 := ⟨n - 1, by omega⟩
  obtain ⟨k0, f0, vv0, t0, i0, p0, l0⟩ := e
  dsimp only at hp hl hv hf
  subst hp
  subst hl
  subst hv
  subst hf
  simp only [accessList]
  rw [entityValue_unset_single ts m c i _ f v h rfl rfl rfl rfl hps hb]
  simp only []
  rw [accessList_cached ts (m + 3)
    ⟨c.objectSlices.set i
      { key := k0, initializeFunc := some f, value := v, typ := t0, index := i0,
        prototype := false, locked := false }⟩ i
    { key := k0, initializeFunc := some f, value := v, typ := t0, index := i0,
      prototype := false, locked := false }
    (by omega) (listGet_set_self _ i _ _ h) rfl rfl hnn n']
  simp [List.replicate_succ]

/-- Witness for C3: two accesses to an unset singleton with a
parameterless factory invoke the factory once and both return its
value. -/
theorem claim_C3_witness :
    accessList tsW 3 0 2 cW3 =
      (List.replicate 2 (.ok (.prim 1 7)),
        ⟨cW3.objectSlices.set 0 { eW3 with value := .prim 1 7, locked := false }⟩, [0]) :=
  claim_C3 tsW 3 cW3 0 eW3 fW3 (.prim 1 7) 2 (by decide) rfl rfl rfl rfl rfl rfl rfl
    (by decide) (by decide)

/-- C4: a singleton whose factory legitimately produces the nil value is
re-invoked on every access — after `n` accesses the trace holds `n`
invocations — because the cached-value check is an absence check on the
produced value, not a computed flag; the container is unchanged, so the
record remains "unset" forever. -/
theorem claim_C4 (ts : TypeSys) (fuel : Nat) (c : Container) (i : Nat) (e : Entity)
    (f : GoFunc) (hfuel : 3 ≤ fuel)
    (h : c.objectSlices[i]? = some e) (hp : e.prototype = false) (hl : e.locked = false)
    (hv : e.value = GoVal.nil) (hf : e.initializeFunc = some f) (hps : f.params = [])
    (hb : f.body [] = [GoVal.nil]) (n : Nat) :
    accessList ts fuel i n c = (List.replicate n (.ok GoVal.nil), c, List.replicate n i) := by
  obtain ⟨m, rfl⟩ : ∃ m, fuel = m + 3 := ⟨fuel - 3, by omega⟩
  induction n with
  | zero => rfl
  | succ n ih =>
    simp only [accessList]
    rw [entityValue_unset_nilValue ts m c i e f h hp hl hv hf hps hb]
    simp only []
    rw [ih]
    simp [List.replicate_succ]

/-- Witness for C4: two accesses to a nil-producing singleton invoke the
factory twice. -/
theorem claim_C4_witness :
    accessList tsW 3 0 2 cW4 = (List.replicate 2 (.ok GoVal.nil), cW4, List.replicate 2 0) :=
  claim_C4 tsW 3 cW4 0 eW4 fW4 (by decide) rfl rfl rfl rfl rfl rfl rfl 2

/-- C5: a factory that returns a non-nil error as its declared second
result makes materialization fail with that error; nothing is cached
(the container is unchanged, the record's value stays unset), and every
further access invokes the factory again — after `n` accesses the trace
holds `n` invocations. Failures are never cached as permanent. -/
theorem claim_C5 (ts : TypeSys) (fuel : Nat) (c : Container) (i : Nat) (e : Entity)
    (f : GoFunc) (v0 : GoVal) (t : GoType) (code : Nat) (rest : List GoVal) (hfuel : 3 ≤ fuel)
    (h : c.objectSlices[i]? = some e) (hp : e.prototype = false) (hl : e.locked = false)
    (hv : e.value = GoVal.nil) (hf : e.initializeFunc = some f) (hps : f.params = [])
    (hb : f.body [] = v0 :: .errv t code :: rest) (n : Nat) :
    accessList ts fuel i n c =
      (List.replicate n (.error (.factoryErr t code)), c, List.replicate n i) := by
  obtain ⟨m, rfl⟩ : ∃ m, fuel = m + 3 := ⟨fuel - 3, by omega⟩
  induction n with
  | zero => rfl
  | succ n ih =>
    simp only [accessList]
    rw [entityValue_unset_factoryErr ts m c i e f v0 t code rest h hp hl hv hf hps hb]
    simp only []
    rw [ih]
    simp [List.replicate_succ]

/-- Witness for C5: two accesses to a singleton whose factory errors
both surface the factory error and invoke the factory each time. -/
theorem claim_C5_witness :
    accessList tsW 3 0 2 cW5 =
      (List.replicate 2 (.error (.factoryErr 9 3)), cW5, List.replicate 2 0) :=
  claim_C5 tsW 3 cW5 0 eW5 fW5 (.prim 1 0) 9 3 [] (by decide) rfl rfl rfl rfl rfl rfl rfl 2

end GoToolkit

namespace GoToolkit

/-- C7: a prototype binding unconditionally re-invokes the
factory-resolution pipeline on every access (first conjunct: for any
fuel, `Entity.Value` on a prototype record is exactly `createValue`),
so for a parameterless factory `n` accesses invoke the factory exactly
`n` times — the trace after `n` accesses is `n` copies of `i` — and no
value is ever cached: the container, hence the record's `value` field,
is unchanged (second conjunct). -/
theorem claim_C7 (ts : TypeSys) (fuel : Nat) (c : Container) (i : Nat) (e : Entity)
    (f : GoFunc) (hfuel : 3 ≤ fuel)
    (h : c.objectSlices[i]? = some e) (hp : e.prototype = true)
    (hf : e.initializeFunc = some f) (hps : f.params = []) :
    (∀ k, entityValue ts (k + 1) c i = createValue ts k c i) ∧
    ∀ n, accessList ts fuel i n c =
      (List.replicate n ((entityValue ts fuel c i).1), c, List.replicate n i) := by
  have hpipe : ∀ k, entityValue ts (k + 1) c i = createValue ts k c i := by
    intro k
    simp only [entityValue]
    rw [h]
    simp [hp]
  refine ⟨hpipe, ?_⟩
  obtain ⟨m, rfl⟩ : ∃ m, fuel = m + 3 := ⟨fuel - 3, by omega⟩
  obtain ⟨r, hr⟩ := createValue_nilparams_shape ts m c i e f h hf hps
  have hone : entityValue ts (m + 3) c i = (r, c, [i]) := (hpipe (m + 2)).trans hr
  intro n
  induction n with
  | zero => rfl
  | succ n ih =>
    simp only [accessList]
    rw [hone]
    simp only []
    rw [ih]
    simp [hone, List.replicate_succ]

/-- Witness for C7: four accesses to a prototype record invoke its
factory four times and leave the container unchanged. -/
theorem claim_C7_witness :
    accessList tsW 3 0 4 cW7 =
      (List.replicate 4 ((entityValue tsW 3 cW7 0).1), cW7, List.replicate 4 0) :=
  (claim_C7 tsW 3 cW7 0 eW7 fW7 (by decide) rfl rfl rfl rfl).2 4

end GoToolkit

namespace GoToolkit

/-- C6: for every key already present in the registry, a second
registration under that key — through the common factory path
`bindWith` (used by `Bind`/`BindWithKey` and their singleton and
prototype variants), through `BindValue` with a non-nil value, through
`BindWithKey` with a well-formed factory, or through `Bind` when the
factory's result type is the occupied key — returns `RepeatedBind` and
returns the registry unchanged: the first binding is never
overwritten. -/
theorem claim_C6 (c : Container) (k : GoKey) (hk : c.containsKey k = true) :
    (∀ typ fn proto, bindWith c k typ fn proto = (some .repeatedBind, c)) ∧
    (∀ ts v, v ≠ GoVal.nil → Container.bindValue ts c k v = (some .repeatedBind, c)) ∧
    (∀ f proto t0 rest, f.outs = t0 :: rest →
      Container.bindWithKey c k (some f) proto = (some .repeatedBind, c)) ∧
    (∀ f proto t0 rest, f.outs = t0 :: rest → c.containsKey (GoKey.typ t0) = true →
      Container.bind c (some f) proto = (some .repeatedBind, c)) := by
  refine ⟨?_, ?_, ?_, ?_⟩
  · intro typ fn proto
    simp [bindWith, hk]
  · intro ts v hv
    simp [Container.bindValue, hv, hk]
  · intro f proto t0 rest houts
    simp [Container.bindWithKey, houts, bindWith, hk]
  · intro f proto t0 rest houts hk0
    simp [Container.bind, houts, bindWith, hk0]

/-- Witness for C6 at a concrete registry whose single record occupies
key `reflect.Type 3`. -/
theorem claim_C6_witness :
    bindWith cW6 (.typ 3) 3 none false = (some .repeatedBind, cW6) ∧
    Container.bindValue tsW cW6 (.typ 3) (.prim 3 9) = (some .repeatedBind, cW6) ∧
    Container.bindWithKey cW6 (.typ 3) (some fW3) true = (some .repeatedBind, cW6) :=
  ⟨(claim_C6 cW6 (.typ 3) rfl).1 3 none false,
   (claim_C6 cW6 (.typ 3) rfl).2.1 tsW (.prim 3 9) (by decide),
   (claim_C6 cW6 (.typ 3) rfl).2.2.1 fW3 true 1 [] rfl⟩

/-- C9: a declared parameter whose required type is exactly the
registry's own type is resolved by `instanceOfType` to the registry
instance itself — the container is unchanged, no factory runs, and no
`Get` lookup over the records is performed (first conjunct); hence a
`Call` of a callback declaring such a parameter receives the registry
itself (second conjunct). -/
theorem claim_C9 (ts : TypeSys)
    (hrefl : ts.assignableTo ts.containerTyp ts.containerTyp = true) :
    (∀ m c, instanceOfType ts (m + 1) c ts.containerTyp = (.ok .containerVal, c, [])) ∧
    (∀ m c outs bdy, containerCall ts (m + 2) c (some ⟨[ts.containerTyp], outs, bdy⟩) =
      (.ok (bdy [.containerVal]), c, [])) := by
  have h1 : ∀ m c, instanceOfType ts (m + 1) c ts.containerTyp = (.ok .containerVal, c, []) := by
    intro m c
    simp [instanceOfType, hrefl]
  refine ⟨h1, ?_⟩
  intro m c outs bdy
  simp only [containerCall]
  simp only [funcArgs]
  rw [h1 m c]
  simp [funcArgs]

/-- Witness for C9: resolving the container's own type against a
registry that has no binding for it still returns the container value
with no lookup performed. -/
theorem claim_C9_witness :
    instanceOfType tsW 1 cW2 tsW.containerTyp = (.ok .containerVal, cW2, []) ∧
    containerCall tsW 2 cW2 (some ⟨[tsW.containerTyp], [], fun vs => vs⟩) =
      (.ok [.containerVal], cW2, []) :=
  ⟨(claim_C9 tsW rfl).1 0 cW2, (claim_C9 tsW rfl).2 0 cW2 [] (fun vs => vs)⟩

/-- A factory whose declared second result is non-nil but does not
implement the error interface: the error-shape test fails silently and
the first result is returned as the produced value. -/
theorem createValue_ignoreSecond (ts : TypeSys) (m : Nat) (c : Container) (i : Nat)
    (e : Entity) (f : GoFunc) (args : List GoVal) (c₁ : Container) (tr : List Nat)
    (v0 v1 : GoVal) (rest : List GoVal)
    (h : c.objectSlices[i]? = some e) (hf : e.initializeFunc = some f)
    (hargs : funcArgs ts m c f.params = (.ok args, c₁, tr))
    (hb : f.body args = v0 :: v1 :: rest) (h1 : v1 ≠ GoVal.nil)
    (h2 : ∀ t code, v1 ≠ GoVal.errv t code) :
    createValue ts (m + 1) c i = (.ok v0, c₁, tr ++ [i]) := by
  simp only [createValue]
  rw [h]
  simp only [hf, hargs, hb]
  rcases v1 with _ | _ | ⟨t, code⟩ | ⟨t, d⟩
  · exact absurd rfl h1
  · simp
  · exact absurd rfl (h2 t code)
  · simp

/-- C10: a factory declaring a second result that does not implement
the error interface has a non-nil second result silently ignored:
materialization succeeds with the first result (first conjunct), and for
an unset singleton the first result is cached in the record (second
conjunct). -/
theorem claim_C10 (ts : TypeSys) (m : Nat) (c : Container) (i : Nat) (e : Entity)
    (f : GoFunc) (args : List GoVal) (c₁ : Container) (tr : List Nat)
    (v0 v1 : GoVal) (rest : List GoVal)
    (h : c.objectSlices[i]? = some e) (hf : e.initializeFunc = some f)
    (hargs : funcArgs ts m c f.params = (.ok args, c₁, tr))
    (hb : f.body args = v0 :: v1 :: rest) (h1 : v1 ≠ GoVal.nil)
    (h2 : ∀ t code, v1 ≠ GoVal.errv t code) :
    createValue ts (m + 1) c i = (.ok v0, c₁, tr ++ [i]) ∧
    (e.prototype = false → e.locked = false → e.value = GoVal.nil → f.params = [] →
      entityValue ts (m + 2) c i =
        (.ok v0, ⟨c.objectSlices.set i { e with value := v0, locked := false }⟩, [i])) := by
  refine ⟨createValue_ignoreSecond ts m c i e f args c₁ tr v0 v1 rest h hf hargs hb h1 h2, ?_⟩
  intro hp hl hv hps
  obtain ⟨k0, f0, vv0, t0, i0, p0, l0⟩ := e
  dsimp only at hp hl hv hf
  subst hp
  subst hl
  subst hv
  subst hf
  rw [hps] at hargs
  cases m with
  | zero => simp [funcArgs] at hargs
  | succ mp =>
    have h3 : args = [] ∧ c₁ = c ∧ tr = [] := by
      simp only [funcArgs] at hargs
      simpa using hargs.symm
    obtain ⟨rfl, -, rfl⟩ := h3
    have h₂ := listGet_set_self c.objectSlices i
      ({ key := k0, initializeFunc := some f, value := GoVal.nil, typ := t0, index := i0,
         prototype := false, locked := true } : Entity) _ h
    have hcV := createValue_ignoreSecond ts (mp + 1)
      ⟨c.objectSlices.set i
        { key := k0, initializeFunc := some f, value := GoVal.nil, typ := t0, index := i0,
          prototype := false, locked := true }⟩ i _ f []
      ⟨c.objectSlices.set i
        { key := k0, initializeFunc := some f, value := GoVal.nil, typ := t0, index := i0,
          prototype := false, locked := true }⟩ [] v0 v1 rest h₂ rfl
      (by rw [hps]; rfl) hb h1 h2
    have hc : createValue ts (mp + 2)
        ⟨c.objectSlices.set i
          { key := k0, initializeFunc := some f, value := GoVal.nil, typ := t0, index := i0,
            prototype := false, locked := true }⟩ i =
        (.ok v0,
          ⟨c.objectSlices.set i
            { key := k0, initializeFunc := some f, value := GoVal.nil, typ := t0, index := i0,
              prototype := false, locked := true }⟩, [i]) := by
      simpa using hcV
    refine Eq.trans (entityValue_unset_ok ts (mp + 2) c i _ _ v0 _ _ h rfl rfl rfl hc h₂) ?_
    simp [List.set_set]

/-- Witness for C10: a factory returning `(prim 1 2, prim 9 9)` — the
second result non-nil and not an error — materializes and caches
`prim 1 2`. -/
theorem claim_C10_witness :
    createValue tsW 2 cW10 0 = (.ok (.prim 1 2), cW10, [0]) ∧
    entityValue tsW 3 cW10 0 =
      (.ok (.prim 1 2),
        ⟨cW10.objectSlices.set 0 { eW10 with value := .prim 1 2, locked := false }⟩, [0]) := by
  have hm := claim_C10 tsW 1 cW10 0 eW10 fW10 [] cW10 [] (.prim 1 2) (.prim 9 9) []
    rfl rfl rfl rfl (by decide) (fun t code hq => GoVal.noConfusion hq)
  exact ⟨hm.1, hm.2 rfl rfl rfl rfl⟩

end GoToolkit

namespace GoToolkit

/-- Splitting a parameter list: when resolving a prefix succeeds, the
resolution of the whole list runs the prefix the same way and continues
with the remaining fuel on the suffix, concatenating resolved arguments
and invocation traces. -/
theorem funcArgs_append (ts : TypeSys) (ys : List GoType) :
    ∀ (pre : List GoType) (fuel : Nat) (c : Container) (args : List GoVal)
      (c₁ : Container) (tr₁ : List Nat),
      funcArgs ts fuel c pre = (.ok args, c₁, tr₁) →
      funcArgs ts fuel c (pre ++ ys) =
        (match funcArgs ts (fuel - pre.length) c₁ ys with
         | (.error err, c₂, tr₂) => (.error err, c₂, tr₁ ++ tr₂)
         | (.ok vs, c₂, tr₂) => (.ok (args ++ vs), c₂, tr₁ ++ tr₂)) := by
  intro pre
  induction pre with
  | nil =>
    intro fuel c args c₁ tr₁ hpre
    cases fuel with
    | zero => simp [funcArgs] at hpre
    | succ m =>
      have h3 : args = [] ∧ c₁ = c ∧ tr₁ = [] := by
        simp only [funcArgs] at hpre
        simpa using hpre.symm
      obtain ⟨rfl, rfl, rfl⟩ := h3
      simp only [List.nil_append, List.length_nil, Nat.sub_zero]
      rcases hy : funcArgs ts (m + 1) c₁ ys with ⟨ry, cy, tr2⟩
      cases ry <;> simp
  | cons t rest ih =>
    intro fuel c args c₁ tr₁ hpre
    cases fuel with
    | zero => simp [funcArgs] at hpre
    | succ m =>
      simp only [List.cons_append]
      simp only [funcArgs] at hpre ⊢
      rcases hI : instanceOfType ts m c t with ⟨rI, cI, trI⟩
      rw [hI] at hpre
      cases rI with
      | error err => simp at hpre
      | ok v =>
        dsimp only at hpre ⊢
        rcases hR : funcArgs ts m cI rest with ⟨rR, cR, trR⟩
        rw [hR] at hpre
        cases rR with
        | error err => simp at hpre
        | ok vs =>
          have h3 : args = v :: vs ∧ c₁ = cR ∧ tr₁ = trI ++ trR := by
            simpa using hpre.symm
          obtain ⟨rfl, rfl, rfl⟩ := h3
          rw [ih m cI vs c₁ trR hR]
          have hlen : m + 1 - (t :: rest).length = m - rest.length := by
            simp only [List.length_cons]
            omega
          rw [hlen]
          rcases hy : funcArgs ts (m - rest.length) c₁ ys with ⟨ry, cy, tr2⟩
          cases ry <;> simp

end GoToolkit

namespace GoToolkit

/-- C8: calling a callback one of whose parameters requires a type with
no matching binding (and which is not the container's own type) aborts
at that parameter: `Call` returns the `ArgNotInstanced` wrapping of the
underlying `ObjectNotFound`, the state is the one reached after
resolving the preceding parameters, the following parameters are never
examined and the callback body is never invoked — the conclusion does
not depend on `post` or `bdy`. -/
theorem claim_C8 (ts : TypeSys) (fuel : Nat) (c : Container) (pre post : List GoType)
    (t : GoType) (args : List GoVal) (c₁ : Container) (tr₁ : List Nat)
    (outs : List GoType) (bdy : List GoVal → List GoVal)
    (hpre : funcArgs ts fuel c pre = (.ok args, c₁, tr₁))
    (hfuel : pre.length + 3 ≤ fuel)
    (hassign : ts.assignableTo ts.containerTyp t = false)
    (hnomatch : findMatch ts (GoKey.typ t) t c₁.objectSlices 0 = none) :
    containerCall ts fuel c (some ⟨pre ++ t :: post, outs, bdy⟩) =
      (.error (.argNotInstanced (.objectNotFound (.typ t))), c₁, tr₁) := by
  simp only [containerCall]
  rw [funcArgs_append ts (t :: post) pre fuel c args c₁ tr₁ hpre]
  obtain ⟨j, hj⟩ : ∃ j, fuel - pre.length = j + 3 := ⟨fuel - pre.length - 3, by omega⟩
  rw [hj]
  have hio : instanceOfType ts (j + 2) c₁ t =
      (.error (.argNotInstanced (.objectNotFound (.typ t))), c₁, []) := by
    simp only [instanceOfType, hassign]
    simp only [containerGet]
    simp only [keyReflectType]
    rw [hnomatch]
    simp
  have hinner : funcArgs ts (j + 3) c₁ (t :: post) =
      (.error (.argNotInstanced (.objectNotFound (.typ t))), c₁, []) := by
    simp only [funcArgs]
    rw [hio]
  rw [hinner]
  simp

/-- Witness for C8: calling a one-parameter callback against the empty
registry fails with `ArgNotInstanced` and never runs the body. -/
theorem claim_C8_witness :
    containerCall tsW 3 ⟨[]⟩ (some ⟨[50], [], fun _ => []⟩) =
      (.error (.argNotInstanced (.objectNotFound (.typ 50))), ⟨[]⟩, []) :=
  claim_C8 tsW 3 ⟨[]⟩ [] [] 50 [] ⟨[]⟩ [] [] (fun _ => []) rfl (by decide) rfl rfl

end GoToolkit

namespace GoToolkit

/-- Characterization of the Get scan: if the record at position `i`
passes the per-record test and no earlier record does, the scan started
at `start` stops at `start + i`. -/
theorem findMatch_spec (ts : TypeSys) (key : GoKey) (krt : GoType) :
    ∀ (l : List Entity) (i : Nat) (e : Entity) (start : Nat),
      l[i]? = some e → entityMatches ts key krt e = true →
      (∀ j ej, j < i → l[j]? = some ej → entityMatches ts key krt ej = false) →
      findMatch ts key krt l start = some (start + i) := by
  intro l
  induction l with
  | nil =>
    intro i e start h
    simp at h
  | cons x xs ih =>
    intro i e start h hm hearlier
    cases i with
    | zero =>
      simp at h
      subst h
      simp [findMatch, hm]
    | succ ip =>
      have hx : entityMatches ts key krt x = false :=
        hearlier 0 x (Nat.succ_pos ip) (by simp)
      simp at h
      have hrec := ih ip e (start + 1) h hm
        (fun j ej hj hje => hearlier (j + 1) ej (by omega) (by simpa using hje))
      rw [show findMatch ts key krt (x :: xs) start = findMatch ts key krt xs (start + 1) from
        by simp [findMatch, hx]]
      rw [hrec]
      exact congrArg some (by omega)

/-- C1 amended: `Get` performs a single scan of the records in
registration order, per record testing exact key match OR capability
(assignability) match together, and resolves the first record passing
either test. In particular an exact-key match does NOT take precedence
over a capability match of an earlier-registered record (see the
counterexample); the original claim's two-phase exact-first lookup is
not what the code does. -/
theorem claim_C1_amended (ts : TypeSys) (fuel : Nat) (c : Container) (key : GoKey)
    (i : Nat) (e : Entity)
    (h : c.objectSlices[i]? = some e)
    (hm : entityMatches ts key (keyReflectType key) e = true)
    (hearlier : ∀ j ej, j < i → c.objectSlices[j]? = some ej →
      entityMatches ts key (keyReflectType key) ej = false) :
    containerGet ts (fuel + 1) c key = entityValue ts fuel c i := by
  simp only [containerGet]
  rw [findMatch_spec ts key (keyReflectType key) c.objectSlices i e 0 h hm hearlier]
  simp

/-- Witness for the amended C1: in `cC1` the first record capability-
matches the request for type `2`, so `Get` resolves record `0`. -/
theorem claim_C1_amended_witness :
    containerGet tsC1 5 cC1 (.typ 2) = entityValue tsC1 4 cC1 0 :=
  claim_C1_amended tsC1 4 cC1 (.typ 2) 0 eC1a rfl rfl
    (fun j _ hj _ => absurd hj (Nat.not_lt_zero j))

/-- Counterexample to C1 as stated: in `cC1` the requested key
`reflect.Type 2` is an exact key match for the later record `eC1b`, yet
`Get` returns the value of the earlier record `eC1a`, selected by
capability matching, and the two values differ — so an exact-key match
elsewhere in the registry does not take precedence over an earlier
record's capability match. -/
theorem claim_C1_counterexample :
    containerGet tsC1 5 cC1 (.typ 2) = (.ok (.prim 1 10), cC1, []) ∧
    cC1.objectSlices[1]? = some eC1b ∧ eC1b.key = .typ 2 ∧
    eC1b.value = .prim 2 20 ∧ (GoVal.prim 1 10 : GoVal) ≠ .prim 2 20 :=
  ⟨rfl, rfl, rfl, rfl, by decide⟩

end GoToolkit
